import Mathlib

/-!
Verification development for the material-kai-vision-platform core:
the hybrid AI provider-fallback dispatcher (`src/services/hybridAIService.ts`),
the PDF workflow observer (`PDFWorkflowService`), and the ConvertAPI PDF
processing pipeline (edge function: text extraction, image relocation,
knowledge-entry construction).

Modelling conventions:
* JavaScript runtime values that flow through `any`-typed positions are
  modelled by `JsonVal` (null/undefined collapse to `.null`); JS truthiness
  is `JsonVal.truthy`.
* Numeric scores (0.1 / 0.3 / 0.7 / 0.9 ...) are modelled as `ℚ`; every
  comparison performed by the source on these literals has the same outcome
  over `ℚ` as over binary floating point.
* Wall-clock reads (`Date.now()`) are either passed in as a `now : Nat`
  parameter (where they reach data, e.g. generated filenames) or fixed to 0
  (where they only fill `*_time_ms` fields no claim is about).
* External effects (provider invocation, fetch, storage upload) are passed
  in as explicit outcome parameters, matching the spec's treatment of them
  as opaque remote capabilities; everything else is translated directly
  from the TypeScript source.
-/

/-- A JavaScript runtime value, as far as the dispatcher inspects it.
`null` also stands for `undefined`. -/
inductive JsonVal where
  | null
  | bool (b : Bool)
  | num (q : ℚ)
  | str (s : String)
  | arr (elems : List JsonVal)
  | obj (fields : List (String × JsonVal))

namespace JsonVal

/-- JS truthiness of a value (`NaN` is not modelled). -/
def truthy : JsonVal → Bool
  | .null => false
  | .bool b => b
  | .num q => q ≠ 0
  | .str s => s ≠ ""
  | .arr _ => true
  | .obj _ => true

/-- JS property access `v[k]`; yields `.null` (undefined) when the value is
not an object or lacks the key. -/
def getField (v : JsonVal) (k : String) : JsonVal :=
  match v with
  | .obj fields => (fields.lookup k).getD .null
  | _ => .null

/-- `Object.keys(v).length` for the values the source can apply it to
(only ever evaluated on truthy values, after the `&&` short-circuit). -/
def keysCount : JsonVal → Nat
  | .obj fields => fields.length
  | .arr elems => elems.length
  | .str s => s.length
  | _ => 0

end JsonVal

/-! ## Hybrid AI service (`src/services/hybridAIService.ts`) -/

/-- `AIProvider` interface. -/
structure AIProvider where
  name : String
  priority : Int
  available : Bool
deriving DecidableEq

/-- The request's `type` union
(`'material-analysis' | '3d-generation' | 'text-processing' | 'general'`). -/
inductive HybridRequestType where
  | materialAnalysis
  | generation3d
  | textProcessing
  | general
deriving DecidableEq

/-- `HybridRequest` interface (fields the dispatcher reads). -/
structure HybridRequest where
  prompt : String
  model : Option String := none
  type : HybridRequestType := .general
  imageUrl : Option String := none
  maxRetries : Option Nat := none
  minimumScore : Option ℚ := none
deriving DecidableEq

/-- The object returned by `validateResponse`. -/
structure HybridValidation where
  score : ℚ
  confidence : ℚ
  reasoning : String
  issues : List String
  suggestions : List String
deriving DecidableEq

/-- One entry of `HybridResponse.attempts`. Failed attempts carry no
`score`, successful attempts no `error`, mirroring the two object literals
pushed by the source. -/
structure ProviderAttempt where
  provider : String
  success : Bool
  score : Option ℚ
  error : Option String
  processing_time_ms : Nat
deriving DecidableEq

/-- `HybridResponse`. `validation` is the best validation object on
success and `none` on failure (source: the literal
`{score: 0, issues: ['All providers failed']}`, whose score-0 content is
exposed through `final_score = 0`). -/
structure HybridResponse where
  success : Bool
  data : JsonVal
  provider : String
  attempts : List ProviderAttempt
  final_score : ℚ
  validation : Option HybridValidation
  total_processing_time_ms : Nat

/-- The class's fixed `PROVIDERS` field. -/
def PROVIDERS : List AIProvider :=
  [⟨"openai", 1, true⟩, ⟨"claude", 2, true⟩]

def DEFAULT_MIN_SCORE : ℚ := mkRat 7 10

def DEFAULT_MAX_RETRIES : Nat := 2

/-- `HybridAIService.validateResponse`: the request parameter is unused by
the source body but kept in the signature. -/
def validateResponse (result : JsonVal) (_request : HybridRequest) : HybridValidation :=
  let hasContent := result.truthy &&
    ((result.getField "text").truthy || (result.getField "raw_response").truthy ||
     (result.getField "image_url").truthy || result.keysCount > 0)
  let hasError := (result.getField "error").truthy ||
    (match result.getField "status" with | .str s => s = "error" | _ => false)
  { score := if hasError then mkRat 1 10 else if hasContent then mkRat 9 10 else mkRat 3 10
    confidence := if hasContent then mkRat 8 10 else mkRat 2 10
    reasoning := if hasContent then "Response contains content" else "Response is empty or invalid"
    issues := if hasContent then [] else ["Empty or invalid response"]
    suggestions := if hasContent then [] else ["Retry with different parameters"] }

/-- Stable insertion of a provider into a priority-sorted list (ties keep
original order, as JS `Array.prototype.sort` is stable). -/
def insertByPriority (p : AIProvider) : List AIProvider → List AIProvider
  | [] => [p]
  | q :: rest =>
    if p.priority < q.priority then p :: q :: rest else q :: insertByPriority p rest

/-- `providers.sort((a, b) => a.priority - b.priority)`. -/
def sortByPriority : List AIProvider → List AIProvider
  | [] => []
  | p :: rest => insertByPriority p (sortByPriority rest)

/-- The dispatcher loop's mutable locals
(`attempts`, `bestResult`, `bestScore`, `bestValidation`).
`bestResult` starts as JS `null`. -/
structure DispatchState where
  attempts : List ProviderAttempt
  bestResult : JsonVal
  bestScore : ℚ
  bestValidation : Option HybridValidation

/-- The `for (const provider of sortedProviders)` loop of `processRequest`.
`call` models the `switch` dispatch to the provider invocation (a throw is
an `Except.error`, caught by the loop's `catch`). Per-attempt elapsed
times are fixed to 0 (no clock in the model). -/
def runProviders (call : String → Except String JsonVal) (request : HybridRequest)
    (minimumScore : ℚ) (maxRetries : Nat) :
    List AIProvider → DispatchState → DispatchState
  | [], st => st
  | provider :: rest, st =>
    if st.attempts.length ≥ maxRetries then st
    else
      match call provider.name with
      | .ok result =>
        let validation := validateResponse result request
        let attempts' := st.attempts ++
          [⟨provider.name, true, some validation.score, none, 0⟩]
        let st' : DispatchState :=
          if validation.score > st.bestScore then
            ⟨attempts', result, validation.score, some validation⟩
          else
            ⟨attempts', st.bestResult, st.bestScore, st.bestValidation⟩
        if validation.score ≥ minimumScore then st'
        else runProviders call request minimumScore maxRetries rest st'
      | .error e =>
        runProviders call request minimumScore maxRetries rest
          ⟨st.attempts ++ [⟨provider.name, false, none, some e, 0⟩],
            st.bestResult, st.bestScore, st.bestValidation⟩

/-- The `switch (provider.name)` dispatch inside the loop's `try` block:
known names invoke their provider, an unknown name throws. -/
def mkProviderCall (callOpenAI callClaude : HybridRequest → Except String JsonVal)
    (request : HybridRequest) : String → Except String JsonVal := fun name =>
  if name = "openai" then callOpenAI request
  else if name = "claude" then callClaude request
  else .error ("Unknown provider: " ++ name)

/-- The loop of `processRequest` run to completion from the initial local
state (`attempts = []`, `bestResult = null`, `bestScore = 0`,
`bestValidation = null`) over the availability-filtered, priority-sorted
providers. -/
def dispatchLoopState (callOpenAI callClaude : HybridRequest → Except String JsonVal)
    (request : HybridRequest) : DispatchState :=
  runProviders (mkProviderCall callOpenAI callClaude request) request
    (request.minimumScore.getD DEFAULT_MIN_SCORE)
    (request.maxRetries.getD DEFAULT_MAX_RETRIES)
    (sortByPriority (PROVIDERS.filter (·.available)))
    ⟨[], .null, 0, none⟩

/-- `HybridAIService.processRequest`. `callOpenAI` / `callClaude` are the
provider invocations (opaque remote capabilities; in this repository both
stubs always throw, the dispatcher logic is independent of that).
The final `if (bestResult)` is JS truthiness of the best raw result. -/
def processRequest (callOpenAI callClaude : HybridRequest → Except String JsonVal)
    (request : HybridRequest) : HybridResponse :=
  let st := dispatchLoopState callOpenAI callClaude request
  if st.bestResult.truthy then
    { success := true
      data := st.bestResult
      provider :=
        match st.attempts.find? (fun a => a.score = some st.bestScore) with
        | some a => if a.provider = "" then "unknown" else a.provider
        | none => "unknown"
      attempts := st.attempts
      final_score := st.bestScore
      validation := st.bestValidation
      total_processing_time_ms := 0 }
  else
    { success := false
      data := .null
      provider := "none"
      attempts := st.attempts
      final_score := 0
      validation := none
      total_processing_time_ms := 0 }

/-! ## PDF workflow observer (`PDFWorkflowService`) -/

/-- Step / job status union `'pending' | 'running' | 'completed' | 'failed'`. -/
inductive WorkflowStatus where
  | pending
  | running
  | completed
  | failed
deriving DecidableEq

/-- A `WorkflowStep`. Presentation-only fields (`name`, `description`,
`icon`) and wall-clock fields (`startTime`, `endTime`, `duration`) do not
influence any status derivation and are omitted. -/
structure WorkflowStep where
  id : String
  status : WorkflowStatus
  details : List String := []
  logs : List String := []
  error : Option String := none
deriving DecidableEq

/-- A `Partial<WorkflowStep>` argument of `updateJobStep`: `some` marks a
property present in the update object. -/
structure StepUpdate where
  status : Option WorkflowStatus := none
  details : Option (List String) := none
  logs : Option (List String) := none
  error : Option String := none
deriving DecidableEq

/-- A `WorkflowJob` (timestamps omitted as for steps). -/
structure WorkflowJob where
  id : String
  name : String
  filename : String
  status : WorkflowStatus
  steps : List WorkflowStep
deriving DecidableEq

/-- The spread merge `{ ...job.steps[stepIndex], ...updates }`. -/
def mergeStep (s : WorkflowStep) (u : StepUpdate) : WorkflowStep :=
  { id := s.id
    status := u.status.getD s.status
    details := u.details.getD s.details
    logs := u.logs.getD s.logs
    error := match u.error with | some e => some e | none => s.error }

/-- `PDFWorkflowService.updateJobStep` restricted to one job (the map
lookup that returns early when the job id is unknown is outside the claim;
an unknown step id returns the job unchanged, as in the source). After
merging the update into the addressed step, the job status is revised:
`failed` if the update's own status is `failed`, else `completed` if every
step is completed, else `running` if some step is running, else left as it
was. -/
def updateJobStep (job : WorkflowJob) (stepId : String) (updates : StepUpdate) : WorkflowJob :=
  match job.steps.findIdx? (fun s => s.id = stepId) with
  | none => job
  | some stepIndex =>
    let steps' := job.steps.modify (fun s => mergeStep s updates) stepIndex
    let status' :=
      if updates.status = some .failed then WorkflowStatus.failed
      else if steps'.all (fun s => s.status = .completed) then .completed
      else if steps'.any (fun s => s.status = .running) then .running
      else job.status
    { job with steps := steps', status := status' }

/-- Modelled from the spec: the invariant's pure status function —
"`failed` if any step failed, `completed` if all steps completed, else
`running` if any step is running, else `pending`". Stated for comparison
with what `updateJobStep` actually maintains. -/
def specDerivedStatus (steps : List WorkflowStep) : WorkflowStatus :=
  if steps.any (fun s => s.status = .failed) then .failed
  else if steps.all (fun s => s.status = .completed) then .completed
  else if steps.any (fun s => s.status = .running) then .running
  else .pending

/-- A fresh n-step job as `startPDFProcessing` creates it: all steps
`pending`, job status `running`. -/
def freshJob (stepIds : List String) : WorkflowJob :=
  { id := "job-1", name := "PDF Processing Pipeline", filename := "doc.pdf",
    status := .running,
    steps := stepIds.map (fun i => { id := i, status := .pending }) }

/-- Shorthand for the status-only updates issued by `executeStep`. -/
def statusUpdate (st : WorkflowStatus) : StepUpdate := { status := some st }

/-- Apply a sequence of `(stepId, status)` transitions through
`updateJobStep`. -/
def applyTransitions (job : WorkflowJob) : List (String × WorkflowStatus) → WorkflowJob
  | [] => job
  | (i, st) :: rest => applyTransitions (updateJobStep job i (statusUpdate st)) rest

/-! ## ConvertAPI PDF processor — text extraction (`extractTextFromHTML`) -/

/-- Case-insensitive literal match at the head of a character list; returns
the remainder on success (models a `/i` regex literal). -/
def ciDropLit : List Char → List Char → Option (List Char)
  | [], s => some s
  | _ :: _, [] => none
  | p :: ps, c :: cs => if p.toLower = c.toLower then ciDropLit ps cs else none

/-- Case-sensitive literal match at the head of a character list. -/
def csDropLit : List Char → List Char → Option (List Char)
  | [], s => some s
  | _ :: _, [] => none
  | p :: ps, c :: cs => if p = c then csDropLit ps cs else none

/-- Skip `[^>]*` and the closing `>`; returns the remainder after the first
`>`, or `none` when the input has no `>`. -/
def findGt : List Char → Option (List Char)
  | [] => none
  | c :: rest => if c = '>' then some rest else findGt rest

/-- Lazy (`*?`) scan for a case-insensitive closing literal; returns the
remainder after its first occurrence. -/
def findCloseCi (closeLit : List Char) : List Char → Option (List Char)
  | [] => ciDropLit closeLit []
  | c :: rest =>
    match ciDropLit closeLit (c :: rest) with
    | some r => some r
    | none => findCloseCi closeLit rest

/-- Global removal of `/<openLit[^>]*>[\s\S]*?closeLit/gi` matches
(the source's script / style block strips). Fuel-driven; any fuel
`≥ length` gives the regex-replace behaviour, since every step consumes at
least one character. -/
def removeBlocksFuel (openLit closeLit : List Char) : Nat → List Char → List Char
  | 0, s => s
  | _, [] => []
  | Nat.succ n, c :: rest =>
    match ciDropLit openLit (c :: rest) with
    | some afterOpen =>
      match findGt afterOpen with
      | some afterTag =>
        match findCloseCi closeLit afterTag with
        | some afterClose => removeBlocksFuel openLit closeLit n afterClose
        | none => c :: removeBlocksFuel openLit closeLit n rest
      | none => c :: removeBlocksFuel openLit closeLit n rest
    | none => c :: removeBlocksFuel openLit closeLit n rest

/-- `text.replace(/<[^>]+>/g, ' ')`. -/
def stripTagsFuel : Nat → List Char → List Char
  | 0, s => s
  | _, [] => []
  | Nat.succ n, c :: rest =>
    if c = '<' then
      match rest with
      | '>' :: _ => c :: stripTagsFuel n rest
      | _ =>
        match findGt rest with
        | some afterTag => ' ' :: stripTagsFuel n afterTag
        | none => c :: stripTagsFuel n rest
    else c :: stripTagsFuel n rest

/-- Global literal replacement (`String.prototype.replace` with a `g`-flag
literal pattern); `pat` must be non-empty for the fuel `length` to suffice. -/
def replaceAllFuel (pat repl : List Char) : Nat → List Char → List Char
  | 0, s => s
  | _, [] => []
  | Nat.succ n, c :: rest =>
    match csDropLit pat (c :: rest) with
    | some after => repl ++ replaceAllFuel pat repl n after
    | none => c :: replaceAllFuel pat repl n rest

/-- The ASCII part of the JS `\s` class (sufficient for the pipeline's
HTML, whose non-breaking spaces arrive as `&nbsp;` entities). -/
def isJsSpace (c : Char) : Bool :=
  c = ' ' || c = '\t' || c = '\n' || c = '\r' || c = Char.ofNat 11 || c = Char.ofNat 12

/-- `text.replace(/\s+/g, ' ')`. -/
def collapseWsFuel : Nat → List Char → List Char
  | 0, s => s
  | _, [] => []
  | Nat.succ n, c :: rest =>
    if isJsSpace c then ' ' :: collapseWsFuel n (rest.dropWhile isJsSpace)
    else c :: collapseWsFuel n rest

/-- `String.prototype.trim`. -/
def trimJs (s : List Char) : List Char :=
  ((s.dropWhile isJsSpace).reverse.dropWhile isJsSpace).reverse

/-- `extractTextFromHTML` up to (but not including) the final
`substring(0, 8000)`: strip script blocks, style blocks and remaining
tags, decode the entities `&nbsp; &amp; &lt; &gt; &quot; &#39;`, collapse
whitespace and trim. -/
def extractTextUncapped (html : List Char) : List Char :=
  let t1 := removeBlocksFuel "<script".toList "</script>".toList html.length html
  let t2 := removeBlocksFuel "<style".toList "</style>".toList t1.length t1
  let t3 := stripTagsFuel t2.length t2
  let t4 := replaceAllFuel "&nbsp;".toList [' '] t3.length t3
  let t5 := replaceAllFuel "&amp;".toList ['&'] t4.length t4
  let t6 := replaceAllFuel "&lt;".toList ['<'] t5.length t5
  let t7 := replaceAllFuel "&gt;".toList ['>'] t6.length t6
  let t8 := replaceAllFuel "&quot;".toList ['"'] t7.length t7
  let t9 := replaceAllFuel "&#39;".toList ['\''] t8.length t8
  trimJs (collapseWsFuel t9.length t9)

/-- `extractTextFromHTML` on character lists, including the final
`text.substring(0, 8000)`. -/
def extractTextFromHTMLList (html : List Char) : List Char :=
  (extractTextUncapped html).take 8000

/-- `extractTextFromHTML` as a string function. -/
def extractTextFromHTML (html : String) : String :=
  String.mk (extractTextFromHTMLList html.toList)

/-! ## ConvertAPI PDF processor — image relocation -/

/-- `ProcessedImage` interface. -/
structure ProcessedImage where
  originalUrl : String
  supabaseUrl : String
  filename : String
  size : Nat
deriving DecidableEq

/-- Prefix test on strings (used for `contentType?.startsWith('image/')`). -/
def hasLead : List Char → List Char → Bool
  | _, [] => true
  | [], _ :: _ => false
  | c :: cs, p :: ps => c = p && hasLead cs ps

/-- `contentType?.startsWith('image/')`; an absent header fails the test
(in JS `undefined?.startsWith` is `undefined`, hence falsy). -/
def contentTypeIsImage : Option String → Bool
  | some s => hasLead s.toList "image/".toList
  | none => false

/-- `contentType.split('/')[1] || 'jpg'`. -/
def extensionOf (contentType : String) : String :=
  match contentType.splitOn "/" with
  | _ :: e :: _ => if e = "" then "jpg" else e
  | _ => "jpg"

/-- The observable part of one `fetch` response: `ok`, the
`content-type` header, and the downloaded blob's byte size. -/
structure ImageFetchResponse where
  ok : Bool
  contentType : Option String
  size : Nat
deriving DecidableEq

/-- `downloadAndStoreImage`. The fetch outcome, the storage upload outcome
and the public URL are passed in (remote capabilities); `now` is the
`Date.now()` read used in the generated filename. All rejection paths of
the source (non-ok status, non-image content type, blob over 5 MB, upload
error, thrown exception) return `none` — the caught-exception path is the
same `null` result. -/
def downloadAndStoreImage (imageUrl : String) (_userId : String) (index : Nat)
    (resp : ImageFetchResponse) (uploadError : Option String) (publicUrl : String)
    (now : Nat) : Option ProcessedImage :=
  if resp.ok = false then none
  else if contentTypeIsImage resp.contentType = false then none
  else if 5 * 1024 * 1024 < resp.size then none
  else
    match uploadError with
    | some _ => none
    | none =>
      some { originalUrl := imageUrl
             supabaseUrl := publicUrl
             filename := "pdf-image-" ++ toString (index + 1) ++ "-" ++ toString now
               ++ "." ++ extensionOf (resp.contentType.getD "")
             size := resp.size }

/-- One base64 sextet value (the `atob` alphabet). -/
def b64Val (c : Char) : Option Nat :=
  if 'A' ≤ c && c ≤ 'Z' then some (c.toNat - 65)
  else if 'a' ≤ c && c ≤ 'z' then some (c.toNat - 97 + 26)
  else if '0' ≤ c && c ≤ '9' then some (c.toNat - 48 + 52)
  else if c = '+' then some 62
  else if c = '/' then some 63
  else none

/-- Reassemble bytes from 6-bit groups (trailing 2 or 3 sextets produce 1
or 2 bytes). -/
def sextetsToBytes : List Nat → List Nat
  | a :: b :: c :: d :: rest =>
    (a * 4 + b / 16) :: ((b % 16) * 16 + c / 4) :: ((c % 4) * 64 + d) :: sextetsToBytes rest
  | [a, b] => [a * 4 + b / 16]
  | [a, b, c] => [a * 4 + b / 16, (b % 16) * 16 + c / 4]
  | _ => []

/-- Remove up to two trailing `=` padding characters. -/
def dropTrailingEq (s : List Char) : List Char :=
  match s.reverse with
  | '=' :: '=' :: rest => rest.reverse
  | '=' :: rest => rest.reverse
  | _ => s

/-- `atob` (forgiving-base64 decode): strip ASCII whitespace, drop
padding, reject a leftover length of 1 mod 4 or any character outside the
alphabet, and emit bytes. -/
def atob (input : String) : Except String (List Nat) :=
  let s := input.toList.filter
    (fun c => !(c = ' ' || c = '\t' || c = '\n' || c = '\r' || c = Char.ofNat 12))
  let s := if s.length % 4 = 0 then dropTrailingEq s else s
  if s.length % 4 = 1 then .error "InvalidCharacterError"
  else
    match s.mapM b64Val with
    | some sextets => .ok (sextetsToBytes sextets)
    | none => .error "InvalidCharacterError"

/-- The record returned by `processBase64Image`. -/
structure ProcessedBase64Image where
  originalSrc : String
  supabaseUrl : String
  filename : String
deriving DecidableEq

/-- `processBase64Image`: decode the payload with `atob` (a decode throw
is caught and yields `null`), upload, and return the original data URL
with its new public URL; any upload error yields `null`. -/
def processBase64Image (base64Data : String) (imageType : String) (_userId : String)
    (index : Nat) (uploadError : Option String) (publicUrl : String) (now : Nat) :
    Option ProcessedBase64Image :=
  match atob base64Data with
  | .error _ => none
  | .ok _bytes =>
    match uploadError with
    | some _ => none
    | none =>
      some { originalSrc := "data:image/" ++ imageType ++ ";base64," ++ base64Data
             supabaseUrl := publicUrl
             filename := "base64-image-" ++ toString index ++ "-" ++ toString now
               ++ "." ++ imageType }

/-- The per-image inputs of one iteration of the HTTP-image loop. -/
structure HttpImageTask where
  url : String
  resp : ImageFetchResponse
  uploadError : Option String
  publicUrl : String
deriving DecidableEq

/-- The `for` loop over discovered HTTP images in `serve` (step 3): each
image is attempted in order, `null` results are skipped, successes are
pushed. The pacing `setTimeout` has no observable effect in the model. -/
def processHttpImages (userId : String) (now : Nat) : Nat → List HttpImageTask → List ProcessedImage
  | _, [] => []
  | i, t :: rest =>
    match downloadAndStoreImage t.url userId i t.resp t.uploadError t.publicUrl now with
    | some p => p :: processHttpImages userId now (i + 1) rest
    | none => processHttpImages userId now (i + 1) rest

/-- The per-image inputs of one iteration of the base64-image loop. -/
structure Base64ImageTask where
  data : String
  imageType : String
  uploadError : Option String
  publicUrl : String
deriving DecidableEq

/-- The `for` loop over discovered base64 images in `serve` (step 3). -/
def processBase64Images (userId : String) (now : Nat) :
    Nat → List Base64ImageTask → List ProcessedBase64Image
  | _, [] => []
  | i, t :: rest =>
    match processBase64Image t.data t.imageType userId i t.uploadError t.publicUrl now with
    | some p => p :: processBase64Images userId now (i + 1) rest
    | none => processBase64Images userId now (i + 1) rest

/-! ## ConvertAPI PDF processor — knowledge entry (step 6) -/

/-- Replace the first occurrence of a literal pattern
(JS `String.prototype.replace` with a string pattern). -/
def replaceOnce (pat repl : List Char) : List Char → List Char
  | [] => []
  | c :: rest =>
    match csDropLit pat (c :: rest) with
    | some after => repl ++ after
    | none => c :: replaceOnce pat repl rest

/-- `s.replace(pat, repl)` for string literals (first occurrence only). -/
def jsReplaceOnce (s pat repl : String) : String :=
  String.mk (replaceOnce pat.toList repl.toList s.toList)

def maxContentSize : Nat := 1024 * 1024

/-- The `contentToStore` truncation applied before the knowledge-base
insert: HTML over 1 MB is cut to 1 MB and a truncation marker comment is
appended. -/
def contentToStore (finalHtmlContent : String) : String :=
  if maxContentSize < finalHtmlContent.length then
    finalHtmlContent.take maxContentSize ++ "\n<!-- Content truncated due to size -->"
  else finalHtmlContent

/-- The `confidence_scores` object of the knowledge entry. -/
structure ConfidenceScores where
  conversion : ℚ
  text_extraction : ℚ
  image_processing : ℚ
  overall : ℚ
deriving DecidableEq

/-- The `knowledgeEntry` row (metadata is flattened to the fields the
claims are about; `processing_date` strings and the per-image mapping list
are omitted). -/
structure KnowledgeEntry where
  title : String
  content : String
  content_type : String
  source_url : String
  semantic_tags : List String
  language : String
  technical_complexity : Nat
  reading_level : Nat
  openai_embedding : Option (List ℚ)
  confidence_scores : ConfidenceScores
  search_keywords : List String
  images_found : Nat
  images_processed : Nat
  base64_images_found : Nat
  base64_images_processed : Nat
  text_preview : String
  created_by : String
  status : String
deriving DecidableEq

/-- Construction of the `knowledgeEntry` object literal (lines 706–749 of
the edge function). -/
def mkKnowledgeEntry (originalFilename : String) (finalHtmlContent : String)
    (htmlPublicUrl : String) (optionsLanguage : Option String) (embedding : List ℚ)
    (extractedText : String) (imageUrls : List String) (base64ImagesFound : Nat)
    (processedImages : List ProcessedImage)
    (processedBase64Images : List ProcessedBase64Image) (userId : String) :
    KnowledgeEntry :=
  { title := jsReplaceOnce originalFilename ".pdf" "" ++ " - HTML Document"
    content := contentToStore finalHtmlContent
    content_type := "enhanced_pdf_html"
    source_url := htmlPublicUrl
    semantic_tags := ["pdf", "html", "convertapi", "uploaded-content"]
    language := match optionsLanguage with
      | some l => if l = "" then "en" else l
      | none => "en"
    technical_complexity := 5
    reading_level := 8
    openai_embedding := if embedding.length > 0 then some embedding else none
    confidence_scores :=
      { conversion := mkRat 9 10
        text_extraction := mkRat 85 100
        image_processing := if processedImages.length > 0 then mkRat 8 10 else 0
        overall := mkRat 87 100 }
    search_keywords := ((extractedText.splitOn " ").filter (fun w => w.length > 3)).take 15
    images_found := imageUrls.length
    images_processed := processedImages.length
    base64_images_found := base64ImagesFound
    base64_images_processed := processedBase64Images.length
    text_preview := extractedText.take 500
    created_by := userId
    status := "published" }

/-! ## Spec-side definitions (for comparison against the code) -/

/-- From the spec's words: "a result with any non-empty content field"
(the content fields the validator names: `text`, `raw_response`,
`image_url`). -/
def specHasNonEmptyContentField (r : JsonVal) : Bool :=
  (r.getField "text").truthy || (r.getField "raw_response").truthy ||
    (r.getField "image_url").truthy

/-- From the spec's words: "a result carrying an explicit error or
error-status". -/
def specCarriesExplicitError (r : JsonVal) : Bool :=
  (r.getField "error").truthy ||
    (match r.getField "status" with | .str s => s = "error" | _ => false)

/-- From the spec's words: "any image was successfully relocated"
(either an HTTP image or a base64 image). -/
def specAnyImageRelocated (processedImages : List ProcessedImage)
    (processedBase64Images : List ProcessedBase64Image) : Bool :=
  0 < processedImages.length + processedBase64Images.length

/-- The shape invariant of one attempt-ledger entry: a successful attempt
carries a score and no error, a failed attempt carries an error and no
score. -/
def attemptConsistent (a : ProviderAttempt) : Prop :=
  (a.success = true → a.error = none ∧ a.score.isSome = true) ∧
  (a.success = false → a.error.isSome = true ∧ a.score = none)

/-! ## Helper lemmas on the dispatcher loop -/

theorem validateResponse_score_cases (r : JsonVal) (req : HybridRequest) :
    (validateResponse r req).score = mkRat 1 10 ∨ (validateResponse r req).score = mkRat 9 10 ∨
      (validateResponse r req).score = mkRat 3 10 := by
  unfold validateResponse
  dsimp only
  split
  · exact Or.inl rfl
  · split
    · exact Or.inr (Or.inl rfl)
    · exact Or.inr (Or.inr rfl)

theorem validateResponse_score_pos (r : JsonVal) (req : HybridRequest) :
    0 < (validateResponse r req).score := by
  rcases validateResponse_score_cases r req with h | h | h <;> rw [h] <;> decide

theorem validateResponse_error_score (r : JsonVal) (req : HybridRequest)
    (h : (r.getField "error").truthy = true) :
    (validateResponse r req).score = mkRat 1 10 := by
  unfold validateResponse
  dsimp only
  rw [if_pos (by rw [h]; rfl)]

theorem runProviders_attempts_extend (call : String → Except String JsonVal)
    (req : HybridRequest) (minS : ℚ) (maxR : Nat) :
    ∀ (ps : List AIProvider) (st : DispatchState),
      ∃ ex, (runProviders call req minS maxR ps st).attempts = st.attempts ++ ex := by
  intro ps
  induction ps with
  | nil => intro st; exact ⟨[], by simp [runProviders]⟩
  | cons p rest ih =>
    intro st
    by_cases h : st.attempts.length ≥ maxR
    · exact ⟨[], by simp [runProviders, h]⟩
    · cases hc : call p.name with
      | ok r =>
        by_cases hbs : (validateResponse r req).score > st.bestScore
        · by_cases hth : (validateResponse r req).score ≥ minS
          · exact ⟨[⟨p.name, true, some (validateResponse r req).score, none, 0⟩],
              by simp [runProviders, h, hc, hbs, hth]⟩
          · obtain ⟨ex, hex⟩ := ih
              ⟨st.attempts ++ [⟨p.name, true, some (validateResponse r req).score, none, 0⟩],
                r, (validateResponse r req).score, some (validateResponse r req)⟩
            exact ⟨[⟨p.name, true, some (validateResponse r req).score, none, 0⟩] ++ ex,
              by simp [runProviders, h, hc, hbs, hth, hex]⟩
        · by_cases hth : (validateResponse r req).score ≥ minS
          · exact ⟨[⟨p.name, true, some (validateResponse r req).score, none, 0⟩],
              by simp [runProviders, h, hc, hbs, hth]⟩
          · obtain ⟨ex, hex⟩ := ih
              ⟨st.attempts ++ [⟨p.name, true, some (validateResponse r req).score, none, 0⟩],
                st.bestResult, st.bestScore, st.bestValidation⟩
            exact ⟨[⟨p.name, true, some (validateResponse r req).score, none, 0⟩] ++ ex,
              by simp [runProviders, h, hc, hbs, hth, hex]⟩
      | error e =>
        obtain ⟨ex, hex⟩ := ih
          ⟨st.attempts ++ [⟨p.name, false, none, some e, 0⟩],
            st.bestResult, st.bestScore, st.bestValidation⟩
        exact ⟨[⟨p.name, false, none, some e, 0⟩] ++ ex,
          by simp [runProviders, h, hc, hex]⟩

theorem runProviders_mem_mono (call : String → Except String JsonVal)
    (req : HybridRequest) (minS : ℚ) (maxR : Nat) (ps : List AIProvider)
    (st : DispatchState) (a : ProviderAttempt) (ha : a ∈ st.attempts) :
    a ∈ (runProviders call req minS maxR ps st).attempts := by
  obtain ⟨ex, hex⟩ := runProviders_attempts_extend call req minS maxR ps st
  rw [hex]
  exact List.mem_append_left _ ha

theorem runProviders_length_le (call : String → Except String JsonVal)
    (req : HybridRequest) (minS : ℚ) (maxR : Nat) :
    ∀ (ps : List AIProvider) (st : DispatchState),
      st.attempts.length ≤ maxR →
      (runProviders call req minS maxR ps st).attempts.length ≤ maxR := by
  intro ps
  induction ps with
  | nil => intro st h; simpa [runProviders] using h
  | cons p rest ih =>
    intro st h
    by_cases hstop : st.attempts.length ≥ maxR
    · simpa [runProviders, hstop] using h
    · have hlt : st.attempts.length < maxR := Nat.lt_of_not_le hstop
      have hsucc : st.attempts.length + 1 ≤ maxR := hlt
      cases hc : call p.name with
      | ok r =>
        by_cases hbs : (validateResponse r req).score > st.bestScore
        · by_cases hth : (validateResponse r req).score ≥ minS
          · simp [runProviders, hstop, hc, hbs, hth]
            omega
          · have := ih
              ⟨st.attempts ++ [⟨p.name, true, some (validateResponse r req).score, none, 0⟩],
                r, (validateResponse r req).score, some (validateResponse r req)⟩
              (by simpa using hsucc)
            simpa [runProviders, hstop, hc, hbs, hth] using this
        · by_cases hth : (validateResponse r req).score ≥ minS
          · simp [runProviders, hstop, hc, hbs, hth]
            omega
          · have := ih
              ⟨st.attempts ++ [⟨p.name, true, some (validateResponse r req).score, none, 0⟩],
                st.bestResult, st.bestScore, st.bestValidation⟩
              (by simpa using hsucc)
            simpa [runProviders, hstop, hc, hbs, hth] using this
      | error e =>
        have := ih
          ⟨st.attempts ++ [⟨p.name, false, none, some e, 0⟩],
            st.bestResult, st.bestScore, st.bestValidation⟩
          (by simpa using hsucc)
        simpa [runProviders, hstop, hc] using this

theorem runProviders_consistent (call : String → Except String JsonVal)
    (req : HybridRequest) (minS : ℚ) (maxR : Nat) :
    ∀ (ps : List AIProvider) (st : DispatchState),
      (∀ a ∈ st.attempts, attemptConsistent a) →
      ∀ a ∈ (runProviders call req minS maxR ps st).attempts, attemptConsistent a := by
  intro ps
  induction ps with
  | nil => intro st h; simpa [runProviders] using h
  | cons p rest ih =>
    intro st h
    by_cases hstop : st.attempts.length ≥ maxR
    · simpa [runProviders, hstop] using h
    · have hok : ∀ s : ℚ,
        ∀ a ∈ st.attempts ++ [⟨p.name, true, some s, none, 0⟩], attemptConsistent a := by
        intro s a ha
        rcases List.mem_append.mp ha with ha | ha
        · exact h a ha
        · rcases List.mem_singleton.mp ha with rfl
          refine ⟨?_, ?_⟩
          · intro _; exact ⟨rfl, rfl⟩
          · intro hf; simp at hf
      have herr : ∀ e : String,
        ∀ a ∈ st.attempts ++ [⟨p.name, false, none, some e, 0⟩], attemptConsistent a := by
        intro e a ha
        rcases List.mem_append.mp ha with ha | ha
        · exact h a ha
        · rcases List.mem_singleton.mp ha with rfl
          refine ⟨?_, ?_⟩
          · intro ht; simp at ht
          · intro _; exact ⟨rfl, rfl⟩
      cases hc : call p.name with
      | ok r =>
        by_cases hbs : (validateResponse r req).score > st.bestScore
        · by_cases hth : (validateResponse r req).score ≥ minS
          · intro a ha
            refine hok (validateResponse r req).score a ?_
            simpa [runProviders, hstop, hc, hbs, hth] using ha
          · have := ih
              ⟨st.attempts ++ [⟨p.name, true, some (validateResponse r req).score, none, 0⟩],
                r, (validateResponse r req).score, some (validateResponse r req)⟩
              (hok _)
            intro a ha
            refine this a ?_
            simpa [runProviders, hstop, hc, hbs, hth] using ha
        · by_cases hth : (validateResponse r req).score ≥ minS
          · intro a ha
            refine hok (validateResponse r req).score a ?_
            simpa [runProviders, hstop, hc, hbs, hth] using ha
          · have := ih
              ⟨st.attempts ++ [⟨p.name, true, some (validateResponse r req).score, none, 0⟩],
                st.bestResult, st.bestScore, st.bestValidation⟩
              (hok _)
            intro a ha
            refine this a ?_
            simpa [runProviders, hstop, hc, hbs, hth] using ha
      | error e =>
        have := ih
          ⟨st.attempts ++ [⟨p.name, false, none, some e, 0⟩],
            st.bestResult, st.bestScore, st.bestValidation⟩
          (herr e)
        intro a ha
        refine this a ?_
        simpa [runProviders, hstop, hc] using ha

theorem runProviders_cons_stop (call : String → Except String JsonVal) (req : HybridRequest)
    (minS : ℚ) (maxR : Nat) (p : AIProvider) (rest : List AIProvider) (st : DispatchState)
    (h : st.attempts.length ≥ maxR) :
    runProviders call req minS maxR (p :: rest) st = st := by
  simp [runProviders, h]

theorem runProviders_cons_ok_exit (call : String → Except String JsonVal) (req : HybridRequest)
    (minS : ℚ) (maxR : Nat) (p : AIProvider) (rest : List AIProvider) (st : DispatchState)
    (r : JsonVal) (h : ¬ st.attempts.length ≥ maxR) (hc : call p.name = .ok r)
    (hth : (validateResponse r req).score ≥ minS) :
    runProviders call req minS maxR (p :: rest) st =
      (if (validateResponse r req).score > st.bestScore then
        ⟨st.attempts ++ [⟨p.name, true, some (validateResponse r req).score, none, 0⟩],
          r, (validateResponse r req).score, some (validateResponse r req)⟩
      else
        ⟨st.attempts ++ [⟨p.name, true, some (validateResponse r req).score, none, 0⟩],
          st.bestResult, st.bestScore, st.bestValidation⟩) := by
  by_cases hbs : (validateResponse r req).score > st.bestScore <;>
    simp [runProviders, h, hc, hth, hbs]

theorem runProviders_cons_ok_cont (call : String → Except String JsonVal) (req : HybridRequest)
    (minS : ℚ) (maxR : Nat) (p : AIProvider) (rest : List AIProvider) (st : DispatchState)
    (r : JsonVal) (h : ¬ st.attempts.length ≥ maxR) (hc : call p.name = .ok r)
    (hth : ¬ (validateResponse r req).score ≥ minS) :
    runProviders call req minS maxR (p :: rest) st =
      runProviders call req minS maxR rest
        (if (validateResponse r req).score > st.bestScore then
          ⟨st.attempts ++ [⟨p.name, true, some (validateResponse r req).score, none, 0⟩],
            r, (validateResponse r req).score, some (validateResponse r req)⟩
        else
          ⟨st.attempts ++ [⟨p.name, true, some (validateResponse r req).score, none, 0⟩],
            st.bestResult, st.bestScore, st.bestValidation⟩) := by
  by_cases hbs : (validateResponse r req).score > st.bestScore <;>
    simp [runProviders, h, hc, hth, hbs]

theorem runProviders_cons_err (call : String → Except String JsonVal) (req : HybridRequest)
    (minS : ℚ) (maxR : Nat) (p : AIProvider) (rest : List AIProvider) (st : DispatchState)
    (e : String) (h : ¬ st.attempts.length ≥ maxR) (hc : call p.name = .error e) :
    runProviders call req minS maxR (p :: rest) st =
      runProviders call req minS maxR rest
        ⟨st.attempts ++ [⟨p.name, false, none, some e, 0⟩],
          st.bestResult, st.bestScore, st.bestValidation⟩ := by
  simp [runProviders, h, hc]

set_option maxHeartbeats 1000000 in
theorem runProviders_score_le (call : String → Except String JsonVal)
    (req : HybridRequest) (minS : ℚ) (maxR : Nat) :
    ∀ (ps : List AIProvider) (st : DispatchState),
      (∀ a ∈ st.attempts, ∀ s, a.score = some s → s ≤ st.bestScore) →
      st.bestScore ≤ (runProviders call req minS maxR ps st).bestScore ∧
      ∀ a ∈ (runProviders call req minS maxR ps st).attempts, ∀ s, a.score = some s →
        s ≤ (runProviders call req minS maxR ps st).bestScore := by
  intro ps
  induction ps with
  | nil => intro st h; exact ⟨le_refl _, by simpa [runProviders] using h⟩
  | cons p rest ih =>
    intro st h
    by_cases hstop : st.attempts.length ≥ maxR
    · rw [runProviders_cons_stop call req minS maxR p rest st hstop]
      exact ⟨le_refl _, h⟩
    · cases hc : call p.name with
      | ok r =>
        by_cases hbs : (validateResponse r req).score > st.bestScore
        · have hinv : ∀ a ∈ st.attempts ++
              [⟨p.name, true, some (validateResponse r req).score, none, 0⟩],
              ∀ s, a.score = some s → s ≤ (validateResponse r req).score := by
            intro a ha s hs
            rcases List.mem_append.mp ha with ha | ha
            · exact le_of_lt (lt_of_le_of_lt (h a ha s hs) hbs)
            · rcases List.mem_singleton.mp ha with rfl
              rw [← Option.some.inj hs]
          by_cases hth : (validateResponse r req).score ≥ minS
          · rw [runProviders_cons_ok_exit call req minS maxR p rest st r hstop hc hth,
              if_pos hbs]
            exact ⟨le_of_lt hbs, hinv⟩
          · rw [runProviders_cons_ok_cont call req minS maxR p rest st r hstop hc hth,
              if_pos hbs]
            obtain ⟨hmono, hall⟩ := ih
              ⟨st.attempts ++ [⟨p.name, true, some (validateResponse r req).score, none, 0⟩],
                r, (validateResponse r req).score, some (validateResponse r req)⟩ hinv
            exact ⟨le_trans (le_of_lt hbs) hmono, hall⟩
        · have hle : (validateResponse r req).score ≤ st.bestScore := le_of_not_lt hbs
          have hinv : ∀ a ∈ st.attempts ++
              [⟨p.name, true, some (validateResponse r req).score, none, 0⟩],
              ∀ s, a.score = some s → s ≤ st.bestScore := by
            intro a ha s hs
            rcases List.mem_append.mp ha with ha | ha
            · exact h a ha s hs
            · rcases List.mem_singleton.mp ha with rfl
              rw [← Option.some.inj hs]; exact hle
          by_cases hth : (validateResponse r req).score ≥ minS
          · rw [runProviders_cons_ok_exit call req minS maxR p rest st r hstop hc hth,
              if_neg hbs]
            exact ⟨le_refl _, hinv⟩
          · rw [runProviders_cons_ok_cont call req minS maxR p rest st r hstop hc hth,
              if_neg hbs]
            exact ih
              ⟨st.attempts ++ [⟨p.name, true, some (validateResponse r req).score, none, 0⟩],
                st.bestResult, st.bestScore, st.bestValidation⟩ hinv
      | error e =>
        rw [runProviders_cons_err call req minS maxR p rest st e hstop hc]
        refine ih _ ?_
        intro a ha s hs
        rcases List.mem_append.mp ha with ha | ha
        · exact h a ha s hs
        · rcases List.mem_singleton.mp ha with rfl
          simp at hs

theorem runProviders_all_failed (call : String → Except String JsonVal)
    (req : HybridRequest) (minS : ℚ) (maxR : Nat) :
    ∀ (ps : List AIProvider) (st : DispatchState),
      (∀ a ∈ (runProviders call req minS maxR ps st).attempts, a.success = false) →
      (runProviders call req minS maxR ps st).bestResult = st.bestResult ∧
      (runProviders call req minS maxR ps st).bestScore = st.bestScore := by
  intro ps
  induction ps with
  | nil => intro st _; exact ⟨rfl, rfl⟩
  | cons p rest ih =>
    intro st h
    by_cases hstop : st.attempts.length ≥ maxR
    · rw [runProviders_cons_stop call req minS maxR p rest st hstop]
      exact ⟨rfl, rfl⟩
    · cases hc : call p.name with
      | ok r =>
        exfalso
        have hmem : (⟨p.name, true, some (validateResponse r req).score, none, 0⟩ :
            ProviderAttempt) ∈ (runProviders call req minS maxR (p :: rest) st).attempts := by
          by_cases hth : (validateResponse r req).score ≥ minS
          · rw [runProviders_cons_ok_exit call req minS maxR p rest st r hstop hc hth]
            by_cases hbs : (validateResponse r req).score > st.bestScore <;>
              simp [hbs]
          · rw [runProviders_cons_ok_cont call req minS maxR p rest st r hstop hc hth]
            by_cases hbs : (validateResponse r req).score > st.bestScore
            · rw [if_pos hbs]
              exact runProviders_mem_mono call req minS maxR rest _ _ (by simp)
            · rw [if_neg hbs]
              exact runProviders_mem_mono call req minS maxR rest _ _ (by simp)
        have := h _ hmem
        simp at this
      | error e =>
        rw [runProviders_cons_err call req minS maxR p rest st e hstop hc] at h ⊢
        exact ih _ h

theorem runProviders_truthy (call : String → Except String JsonVal)
    (req : HybridRequest) (minS : ℚ) (maxR : Nat) :
    ∀ (ps : List AIProvider) (st : DispatchState),
      (∀ p ∈ ps, ∀ r, call p.name = .ok r → r.truthy = true) →
      (st.bestResult.truthy = true ∨
        (st.bestResult = .null ∧ st.bestScore = 0 ∧ ∀ a ∈ st.attempts, a.success = false)) →
      ((runProviders call req minS maxR ps st).bestResult.truthy = true ∨
        ((runProviders call req minS maxR ps st).bestResult = .null ∧
          (runProviders call req minS maxR ps st).bestScore = 0 ∧
          ∀ a ∈ (runProviders call req minS maxR ps st).attempts, a.success = false)) := by
  intro ps
  induction ps with
  | nil => intro st _ hst; simpa [runProviders] using hst
  | cons p rest ih =>
    intro st hcall hst
    by_cases hstop : st.attempts.length ≥ maxR
    · rw [runProviders_cons_stop call req minS maxR p rest st hstop]
      exact hst
    · have hcallRest : ∀ q ∈ rest, ∀ r, call q.name = .ok r → r.truthy = true :=
        fun q hq => hcall q (List.mem_cons_of_mem p hq)
      cases hc : call p.name with
      | ok r =>
        have hr : r.truthy = true := hcall p (List.mem_cons_self p rest) r hc
        by_cases hbs : (validateResponse r req).score > st.bestScore
        · by_cases hth : (validateResponse r req).score ≥ minS
          · rw [runProviders_cons_ok_exit call req minS maxR p rest st r hstop hc hth,
              if_pos hbs]
            exact Or.inl hr
          · rw [runProviders_cons_ok_cont call req minS maxR p rest st r hstop hc hth,
              if_pos hbs]
            exact ih _ hcallRest (Or.inl hr)
        · rcases hst with hst | ⟨_, hzero, _⟩
          · by_cases hth : (validateResponse r req).score ≥ minS
            · rw [runProviders_cons_ok_exit call req minS maxR p rest st r hstop hc hth,
                if_neg hbs]
              exact Or.inl hst
            · rw [runProviders_cons_ok_cont call req minS maxR p rest st r hstop hc hth,
                if_neg hbs]
              exact ih _ hcallRest (Or.inl hst)
          · exact absurd (hzero ▸ validateResponse_score_pos r req) hbs
      | error e =>
        rw [runProviders_cons_err call req minS maxR p rest st e hstop hc]
        refine ih _ hcallRest ?_
        rcases hst with hst | ⟨hnull, hzero, hfail⟩
        · exact Or.inl hst
        · refine Or.inr ⟨hnull, hzero, ?_⟩
          intro a ha
          rcases List.mem_append.mp ha with ha | ha
          · exact hfail a ha
          · rcases List.mem_singleton.mp ha with rfl
            rfl

theorem processRequest_attempts (callOpenAI callClaude : HybridRequest → Except String JsonVal)
    (req : HybridRequest) :
    (processRequest callOpenAI callClaude req).attempts =
      (dispatchLoopState callOpenAI callClaude req).attempts := by
  by_cases h : (dispatchLoopState callOpenAI callClaude req).bestResult.truthy <;>
    simp [processRequest, h]

theorem processRequest_success (callOpenAI callClaude : HybridRequest → Except String JsonVal)
    (req : HybridRequest) :
    (processRequest callOpenAI callClaude req).success =
      (dispatchLoopState callOpenAI callClaude req).bestResult.truthy := by
  unfold processRequest
  by_cases h : (dispatchLoopState callOpenAI callClaude req).bestResult.truthy <;> simp [h]

theorem processRequest_of_truthy (callOpenAI callClaude : HybridRequest → Except String JsonVal)
    (req : HybridRequest)
    (h : (dispatchLoopState callOpenAI callClaude req).bestResult.truthy = true) :
    (processRequest callOpenAI callClaude req).data =
      (dispatchLoopState callOpenAI callClaude req).bestResult ∧
    (processRequest callOpenAI callClaude req).final_score =
      (dispatchLoopState callOpenAI callClaude req).bestScore := by
  unfold processRequest
  simp [h]

theorem processRequest_of_falsy (callOpenAI callClaude : HybridRequest → Except String JsonVal)
    (req : HybridRequest)
    (h : (dispatchLoopState callOpenAI callClaude req).bestResult.truthy = false) :
    (processRequest callOpenAI callClaude req).success = false ∧
    (processRequest callOpenAI callClaude req).data = JsonVal.null ∧
    (processRequest callOpenAI callClaude req).final_score = 0 := by
  unfold processRequest
  simp [h]

theorem mkProviderCall_openai (callOpenAI callClaude : HybridRequest → Except String JsonVal)
    (req : HybridRequest) :
    mkProviderCall callOpenAI callClaude req "openai" = callOpenAI req := rfl

theorem mkProviderCall_claude (callOpenAI callClaude : HybridRequest → Except String JsonVal)
    (req : HybridRequest) :
    mkProviderCall callOpenAI callClaude req "claude" = callClaude req := by
  simp [mkProviderCall]

theorem sortedProviders_eval :
    sortByPriority (PROVIDERS.filter (fun p => p.available)) =
      [⟨"openai", 1, true⟩, ⟨"claude", 2, true⟩] := rfl

/-- C2: in `processRequest`, whenever an attempt's validation score meets
or exceeds the caller's minimum-score threshold (default 0.7), iteration
stops immediately and no later provider is attempted: with providers P1 =
`openai` (priority 1) and P2 = `claude` (priority 2) and P1 scoring at or
above `minimumScore`, the attempt ledger contains exactly the one P1 entry
and P2 is never attempted. -/
theorem C2_dispatcher_early_exit
    (callOpenAI callClaude : HybridRequest → Except String JsonVal)
    (req : HybridRequest) (r : JsonVal)
    (hok : callOpenAI req = .ok r)
    (hsc : req.minimumScore.getD DEFAULT_MIN_SCORE ≤ (validateResponse r req).score)
    (hmr : 1 ≤ req.maxRetries.getD DEFAULT_MAX_RETRIES) :
    (processRequest callOpenAI callClaude req).attempts =
      [⟨"openai", true, some (validateResponse r req).score, none, 0⟩] ∧
    ∀ a ∈ (processRequest callOpenAI callClaude req).attempts, a.provider ≠ "claude" := by
  have hnstop : ¬ (⟨[], .null, 0, none⟩ : DispatchState).attempts.length ≥
      req.maxRetries.getD DEFAULT_MAX_RETRIES :=
    Nat.not_le.mpr (Nat.lt_of_lt_of_le Nat.zero_lt_one hmr)
  have hc : mkProviderCall callOpenAI callClaude req
      (⟨"openai", 1, true⟩ : AIProvider).name = .ok r := hok
  have hstate : dispatchLoopState callOpenAI callClaude req =
      ⟨[⟨"openai", true, some (validateResponse r req).score, none, 0⟩], r,
        (validateResponse r req).score, some (validateResponse r req)⟩ := by
    unfold dispatchLoopState
    rw [sortedProviders_eval,
      runProviders_cons_ok_exit _ req _ _ _ _ _ r hnstop hc hsc,
      if_pos (validateResponse_score_pos r req)]
    rfl
  constructor
  · rw [processRequest_attempts, hstate]
  · intro a ha
    rw [processRequest_attempts, hstate] at ha
    rcases List.mem_singleton.mp ha with rfl
    exact (by decide : ("openai" : String) ≠ "claude")

/-- Witness for C2 at a concrete request: `openai` answers with
`{text: "hello"}` (score 0.9 ≥ default threshold 0.7) and the ledger is
exactly its single successful attempt. -/
theorem C2_witness :
    (processRequest (fun _ => .ok (.obj [("text", .str "hello")]))
        (fun _ => .error "down") { prompt := "p" }).attempts =
      [⟨"openai", true, some (mkRat 9 10), none, 0⟩] := by
  have h := (C2_dispatcher_early_exit (fun _ => .ok (.obj [("text", .str "hello")]))
    (fun _ => .error "down") { prompt := "p" } (.obj [("text", .str "hello")])
    rfl (by decide) (by decide)).1
  rw [h]
  decide

/-- C3: `processRequest` makes at most `maxRetries` (default 2) provider
attempts; and with `maxRetries = 1` and P1 = `openai` failing, the ledger
is exactly one failed attempt and the response is an overall failure, even
though `claude` is available and untried. -/
theorem C3_retry_budget
    (callOpenAI callClaude : HybridRequest → Except String JsonVal)
    (req : HybridRequest) :
    (processRequest callOpenAI callClaude req).attempts.length ≤
      req.maxRetries.getD DEFAULT_MAX_RETRIES ∧
    (∀ e, req.maxRetries = some 1 → callOpenAI req = .error e →
      (processRequest callOpenAI callClaude req).attempts =
        [⟨"openai", false, none, some e, 0⟩] ∧
      (processRequest callOpenAI callClaude req).success = false ∧
      (processRequest callOpenAI callClaude req).final_score = 0) := by
  constructor
  · rw [processRequest_attempts]
    exact runProviders_length_le _ req _ _ _ ⟨[], .null, 0, none⟩ (Nat.zero_le _)
  · intro e hmr1 herr
    have hmr : req.maxRetries.getD DEFAULT_MAX_RETRIES = 1 := by rw [hmr1]; rfl
    have hnstop : ¬ (⟨[], .null, 0, none⟩ : DispatchState).attempts.length ≥
        req.maxRetries.getD DEFAULT_MAX_RETRIES := by
      rw [hmr]; decide
    have hc : mkProviderCall callOpenAI callClaude req
        (⟨"openai", 1, true⟩ : AIProvider).name = .error e := herr
    have hstate : dispatchLoopState callOpenAI callClaude req =
        ⟨[⟨"openai", false, none, some e, 0⟩], .null, 0, none⟩ := by
      unfold dispatchLoopState
      rw [sortedProviders_eval, runProviders_cons_err _ req _ _ _ _ _ e hnstop hc,
        runProviders_cons_stop _ req _ _ _ _ _ (by simp [hmr])]
      rfl
    have hfalsy : (dispatchLoopState callOpenAI callClaude req).bestResult.truthy = false := by
      rw [hstate]; rfl
    obtain ⟨hsucc, _, hscore⟩ := processRequest_of_falsy callOpenAI callClaude req hfalsy
    refine ⟨?_, hsucc, hscore⟩
    rw [processRequest_attempts, hstate]

/-- Witness for C3 at a concrete request with `maxRetries = 1` and a
failing first provider. -/
theorem C3_witness :
    (processRequest (fun _ => .error "boom") (fun _ => .ok (.obj [("text", .str "fine")]))
        { prompt := "p", maxRetries := some 1 }).attempts =
      [⟨"openai", false, none, some "boom", 0⟩] ∧
    (processRequest (fun _ => .error "boom") (fun _ => .ok (.obj [("text", .str "fine")]))
        { prompt := "p", maxRetries := some 1 }).success = false :=
  have h := (C3_retry_budget (fun _ => .error "boom")
    (fun _ => .ok (.obj [("text", .str "fine")])) { prompt := "p", maxRetries := some 1 }).2
    "boom" rfl rfl
  ⟨h.1, h.2.1⟩

/-- C4 counterexample: both providers return a successful, scored result
(`null`, recorded as `success = true` with score 0.3), yet the response is
a failure with `final_score = 0` — because the final `if (bestResult)`
tests JS truthiness of the raw best value, a falsy successful result is
reported as overall failure, contradicting "if at least one attempt
produced a successful, scored result it returns a success response". -/
theorem C4_counterexample :
    (processRequest (fun _ => .ok .null) (fun _ => .ok .null)
        { prompt := "p" }).attempts.any (fun a => a.success) = true ∧
    (processRequest (fun _ => .ok .null) (fun _ => .ok .null)
        { prompt := "p" }).attempts.any
          (fun a => a.success && a.score = some (mkRat 3 10)) = true ∧
    (processRequest (fun _ => .ok .null) (fun _ => .ok .null)
        { prompt := "p" }).success = false ∧
    (processRequest (fun _ => .ok .null) (fun _ => .ok .null)
        { prompt := "p" }).final_score = 0 := by
  decide

/-- C4 as amended: `processRequest` is total (a Lean function; the
dispatcher never raises), every failed ledger entry carries its failure
reason, a failure response carries score 0 and null data, a success
response carries a truthy best result whose final score bounds every
attempt's score, a run in which every attempt failed yields a failure
response, and — provided the providers only ever return truthy (non-null,
non-empty) raw values — any successful attempt forces a success response.
(The unamended claim fails only when a provider "succeeds" with a falsy
value such as `null`.) -/
theorem C4_outcome (callOpenAI callClaude : HybridRequest → Except String JsonVal)
    (req : HybridRequest) :
    (∀ a ∈ (processRequest callOpenAI callClaude req).attempts,
      a.success = false → a.error.isSome = true) ∧
    ((processRequest callOpenAI callClaude req).success = false →
      (processRequest callOpenAI callClaude req).final_score = 0 ∧
      (processRequest callOpenAI callClaude req).data = JsonVal.null) ∧
    ((processRequest callOpenAI callClaude req).success = true →
      (processRequest callOpenAI callClaude req).data.truthy = true ∧
      ∀ a ∈ (processRequest callOpenAI callClaude req).attempts, ∀ s, a.score = some s →
        s ≤ (processRequest callOpenAI callClaude req).final_score) ∧
    ((∀ a ∈ (processRequest callOpenAI callClaude req).attempts, a.success = false) →
      (processRequest callOpenAI callClaude req).success = false) ∧
    ((∀ r, callOpenAI req = .ok r → r.truthy = true) →
      (∀ r, callClaude req = .ok r → r.truthy = true) →
      (∃ a ∈ (processRequest callOpenAI callClaude req).attempts, a.success = true) →
      (processRequest callOpenAI callClaude req).success = true) := by
  refine ⟨?_, ?_, ?_, ?_, ?_⟩
  · intro a ha hfail
    rw [processRequest_attempts] at ha
    have hcons := runProviders_consistent _ req _ _ _ ⟨[], .null, 0, none⟩
      (fun a ha => absurd ha (List.not_mem_nil a)) a ha
    exact (hcons.2 hfail).1
  · intro hfail
    rw [processRequest_success] at hfail
    obtain ⟨_, hdata, hscore⟩ := processRequest_of_falsy callOpenAI callClaude req hfail
    exact ⟨hscore, hdata⟩
  · intro hsucc
    rw [processRequest_success] at hsucc
    obtain ⟨hdata, hscore⟩ := processRequest_of_truthy callOpenAI callClaude req hsucc
    refine ⟨by rw [hdata]; exact hsucc, ?_⟩
    intro a ha s hs
    rw [processRequest_attempts] at ha
    rw [hscore]
    exact (runProviders_score_le _ req _ _ _ ⟨[], .null, 0, none⟩
      (fun a ha => absurd ha (List.not_mem_nil a))).2 a ha s hs
  · intro hall
    rw [processRequest_attempts] at hall
    have := (runProviders_all_failed _ req _ _ _ ⟨[], .null, 0, none⟩ hall).1
    rw [processRequest_success]
    unfold dispatchLoopState at this ⊢
    rw [this]
    rfl
  · intro h1 h2 hex
    have hcall : ∀ p ∈ sortByPriority (PROVIDERS.filter (fun p => p.available)), ∀ r,
        mkProviderCall callOpenAI callClaude req p.name = .ok r → r.truthy = true := by
      intro p hp r hc
      rw [sortedProviders_eval] at hp
      simp only [List.mem_cons, List.mem_singleton, List.not_mem_nil, or_false] at hp
      rcases hp with rfl | rfl
      · exact h1 r hc
      · exact h2 r (by rw [← mkProviderCall_claude callOpenAI callClaude req]; exact hc)
    have hdich := runProviders_truthy _ req
      (req.minimumScore.getD DEFAULT_MIN_SCORE) (req.maxRetries.getD DEFAULT_MAX_RETRIES)
      (sortByPriority (PROVIDERS.filter (fun p => p.available))) ⟨[], .null, 0, none⟩
      hcall (Or.inr ⟨rfl, rfl, fun a ha => absurd ha (List.not_mem_nil a)⟩)
    rcases hdich with htr | ⟨_, _, hfail⟩
    · rw [processRequest_success]
      exact htr
    · obtain ⟨a, ha, hsucc⟩ := hex
      rw [processRequest_attempts] at ha
      rw [hfail a ha] at hsucc
      cases hsucc

/-- Witness for C4 at concrete inputs: `openai` succeeds with a truthy
result, `claude` is down, and the response is a success. -/
theorem C4_witness :
    (processRequest (fun _ => .ok (.obj [("text", .str "hi")]))
        (fun _ => .error "down") { prompt := "p" }).success = true := by
  refine (C4_outcome (fun _ => .ok (.obj [("text", .str "hi")]))
      (fun _ => .error "down") { prompt := "p" }).2.2.2.2 ?_ ?_ ?_
  · intro r hr
    cases hr
    decide
  · intro r hr
    exact Except.noConfusion hr
  · exact ⟨⟨"openai", true, some (mkRat 9 10), none, 0⟩, by decide, rfl⟩

/-- C10: an attempt is recorded with `success = true` exactly when the
provider invocation returns without throwing, regardless of the validation
score: every ledger entry is shape-consistent (`success` entries have a
score and no error, failures an error and no score); a result carrying an
explicit `error` field is still recorded as a successful attempt with
score 0.1; and a throwing invocation is recorded as the failed attempt
carrying the thrown message. -/
theorem C10_attempt_success_semantics
    (callOpenAI callClaude : HybridRequest → Except String JsonVal) (req : HybridRequest) :
    (∀ a ∈ (processRequest callOpenAI callClaude req).attempts, attemptConsistent a) ∧
    (∀ r, callOpenAI req = .ok r → (r.getField "error").truthy = true →
      1 ≤ req.maxRetries.getD DEFAULT_MAX_RETRIES →
      (processRequest callOpenAI callClaude req).attempts.head? =
        some ⟨"openai", true, some (mkRat 1 10), none, 0⟩) ∧
    (∀ e, callOpenAI req = .error e → 1 ≤ req.maxRetries.getD DEFAULT_MAX_RETRIES →
      (processRequest callOpenAI callClaude req).attempts.head? =
        some ⟨"openai", false, none, some e, 0⟩) := by
  refine ⟨?_, ?_, ?_⟩
  · intro a ha
    rw [processRequest_attempts] at ha
    exact runProviders_consistent _ req _ _ _ ⟨[], .null, 0, none⟩
      (fun a ha => absurd ha (List.not_mem_nil a)) a ha
  · intro r hok herrfield hmr
    have hnstop : ¬ (⟨[], .null, 0, none⟩ : DispatchState).attempts.length ≥
        req.maxRetries.getD DEFAULT_MAX_RETRIES :=
      Nat.not_le.mpr (Nat.lt_of_lt_of_le Nat.zero_lt_one hmr)
    have hc : mkProviderCall callOpenAI callClaude req
        (⟨"openai", 1, true⟩ : AIProvider).name = .ok r := hok
    have hscore : (validateResponse r req).score = mkRat 1 10 :=
      validateResponse_error_score r req herrfield
    rw [processRequest_attempts]
    unfold dispatchLoopState
    rw [sortedProviders_eval]
    by_cases hth : (validateResponse r req).score ≥ req.minimumScore.getD DEFAULT_MIN_SCORE
    · rw [runProviders_cons_ok_exit _ req _ _ _ _ _ r hnstop hc hth]
      by_cases hbs : (validateResponse r req).score >
          (⟨[], .null, 0, none⟩ : DispatchState).bestScore
      · rw [if_pos hbs, hscore]; rfl
      · rw [if_neg hbs, hscore]; rfl
    · rw [runProviders_cons_ok_cont _ req _ _ _ _ _ r hnstop hc hth,
        if_pos (validateResponse_score_pos r req)]
      obtain ⟨ex, hex⟩ := runProviders_attempts_extend
        (mkProviderCall callOpenAI callClaude req) req
        (req.minimumScore.getD DEFAULT_MIN_SCORE) (req.maxRetries.getD DEFAULT_MAX_RETRIES)
        [⟨"claude", 2, true⟩]
        ⟨[⟨"openai", true, some (validateResponse r req).score, none, 0⟩], r,
          (validateResponse r req).score, some (validateResponse r req)⟩
      simp only [List.nil_append]
      rw [hex, hscore]
      rfl
  · intro e herr hmr
    have hnstop : ¬ (⟨[], .null, 0, none⟩ : DispatchState).attempts.length ≥
        req.maxRetries.getD DEFAULT_MAX_RETRIES :=
      Nat.not_le.mpr (Nat.lt_of_lt_of_le Nat.zero_lt_one hmr)
    have hc : mkProviderCall callOpenAI callClaude req
        (⟨"openai", 1, true⟩ : AIProvider).name = .error e := herr
    rw [processRequest_attempts]
    unfold dispatchLoopState
    rw [sortedProviders_eval, runProviders_cons_err _ req _ _ _ _ _ e hnstop hc]
    obtain ⟨ex, hex⟩ := runProviders_attempts_extend
      (mkProviderCall callOpenAI callClaude req) req
      (req.minimumScore.getD DEFAULT_MIN_SCORE) (req.maxRetries.getD DEFAULT_MAX_RETRIES)
      [⟨"claude", 2, true⟩]
      ⟨[⟨"openai", false, none, some e, 0⟩], .null, 0, none⟩
    simp only [List.nil_append]
    rw [hex]
    rfl

/-- Witness for C10: `openai` returns `{error: "boom"}` — the invocation
did not throw, so the ledger's first entry is a successful attempt scored
0.1 despite the explicit error field. -/
theorem C10_witness :
    (processRequest (fun _ => .ok (.obj [("error", .str "boom")]))
        (fun _ => .error "down") { prompt := "p" }).attempts.head? =
      some ⟨"openai", true, some (mkRat 1 10), none, 0⟩ :=
  (C10_attempt_success_semantics (fun _ => .ok (.obj [("error", .str "boom")]))
    (fun _ => .error "down") { prompt := "p" }).2.1
    (.obj [("error", .str "boom")]) rfl (by decide) (by decide)

/-- C5 counterexample: the result `{text: "hello", error: "boom"}` has a
non-empty content field, so the claim's first clause assigns it 0.9, but
`validateResponse` checks the error first and scores it 0.1 — the claim's
clauses are not disjoint and the code resolves the overlap in favour of
the error. -/
theorem C5_counterexample :
    specHasNonEmptyContentField
      (.obj [("text", .str "hello"), ("error", .str "boom")]) = true ∧
    (validateResponse (.obj [("text", .str "hello"), ("error", .str "boom")])
      { prompt := "p" }).score ≠ mkRat 9 10 ∧
    (validateResponse (.obj [("text", .str "hello"), ("error", .str "boom")])
      { prompt := "p" }).score = mkRat 1 10 := by
  decide

/-- C5 as amended: the error check takes precedence — the validator scores
0.1 exactly when the result carries an explicit error or error-status
(even when content is present); otherwise 0.9 exactly when the result is
truthy with a non-empty content field or any own keys; otherwise
(recognizable but empty) 0.3. -/
theorem C5_scoring (r : JsonVal) (req : HybridRequest) :
    ((validateResponse r req).score = mkRat 1 10 ↔ specCarriesExplicitError r = true) ∧
    (specCarriesExplicitError r = false →
      ((validateResponse r req).score = mkRat 9 10 ↔
        (r.truthy && (specHasNonEmptyContentField r || decide (r.keysCount > 0))) = true)) ∧
    (specCarriesExplicitError r = false →
      (r.truthy && (specHasNonEmptyContentField r || decide (r.keysCount > 0))) = false →
      (validateResponse r req).score = mkRat 3 10) := by
  have hform : (validateResponse r req).score =
      if specCarriesExplicitError r then mkRat 1 10
      else if r.truthy && (specHasNonEmptyContentField r || decide (r.keysCount > 0))
        then mkRat 9 10 else mkRat 3 10 := by
    unfold validateResponse specCarriesExplicitError
    dsimp only
    rw [show (r.truthy && ((r.getField "text").truthy || (r.getField "raw_response").truthy ||
        (r.getField "image_url").truthy || decide (r.keysCount > 0)))
        = (r.truthy && (specHasNonEmptyContentField r || decide (r.keysCount > 0))) from
      by simp [specHasNonEmptyContentField, Bool.or_assoc]]
  refine ⟨?_, ?_, ?_⟩
  · by_cases hE : specCarriesExplicitError r = true
    · exact iff_of_true (by rw [hform, if_pos hE]) hE
    · refine iff_of_false ?_ hE
      rw [hform, if_neg hE]
      by_cases hC : (r.truthy &&
          (specHasNonEmptyContentField r || decide (r.keysCount > 0))) = true
      · rw [if_pos hC]; decide
      · rw [if_neg hC]; decide
  · intro hEf
    have hE : ¬ specCarriesExplicitError r = true := by simp [hEf]
    by_cases hC : (r.truthy &&
        (specHasNonEmptyContentField r || decide (r.keysCount > 0))) = true
    · exact iff_of_true (by rw [hform, if_neg hE, if_pos hC]) hC
    · refine iff_of_false ?_ hC
      rw [hform, if_neg hE, if_neg hC]; decide
  · intro hEf hCf
    rw [hform, if_neg (by simp [hEf]), if_neg (by simp [hCf])]

/-- Witness for C5 at a concrete error-free contentful result, scored
0.9. -/
theorem C5_witness :
    (validateResponse (.obj [("text", .str "hi")]) { prompt := "p" }).score = mkRat 9 10 :=
  ((C5_scoring (.obj [("text", .str "hi")]) { prompt := "p" }).2.1 (by decide)).mpr (by decide)

/-- C6 counterexample: with no HTTP image relocated but one base64 image
successfully relocated, an image *was* successfully relocated, yet the
stored `image_processing` confidence is 0.0, not 0.8 — the code tests
`processedImages.length > 0`, which counts only HTTP images. -/
theorem C6_counterexample :
    specAnyImageRelocated []
      [⟨"data:image/png;base64,AAAA", "https://pub/img.png", "base64-image-0-1.png"⟩] = true ∧
    (mkKnowledgeEntry "a.pdf" "<html></html>" "https://pub/doc.html" none [] "some text" [] 1 []
      [⟨"data:image/png;base64,AAAA", "https://pub/img.png", "base64-image-0-1.png"⟩]
      "user").confidence_scores.image_processing = 0 ∧
    (mkKnowledgeEntry "a.pdf" "<html></html>" "https://pub/doc.html" none [] "some text" [] 1 []
      [⟨"data:image/png;base64,AAAA", "https://pub/img.png", "base64-image-0-1.png"⟩]
      "user").confidence_scores.image_processing ≠ mkRat 8 10 := by
  refine ⟨rfl, rfl, ?_⟩
  decide

/-- C6 as amended: the stored KnowledgeEntry carries fixed confidence
sub-scores — conversion 0.9, text-extraction 0.85, overall 0.87, and
image-processing 0.8 exactly when at least one *HTTP* image was
successfully relocated (successful base64 relocations do not count), else
0.0 — and a keyword list that is the first 15 tokens of the extracted
text longer than 3 characters (so at most 15 tokens, each longer than 3
characters, in text order). -/
theorem C6_knowledge_entry (originalFilename finalHtmlContent htmlPublicUrl : String)
    (optionsLanguage : Option String) (embedding : List ℚ) (extractedText : String)
    (imageUrls : List String) (base64ImagesFound : Nat)
    (processedImages : List ProcessedImage)
    (processedBase64Images : List ProcessedBase64Image) (userId : String) :
    (mkKnowledgeEntry originalFilename finalHtmlContent htmlPublicUrl optionsLanguage
      embedding extractedText imageUrls base64ImagesFound processedImages
      processedBase64Images userId).confidence_scores.conversion = mkRat 9 10 ∧
    (mkKnowledgeEntry originalFilename finalHtmlContent htmlPublicUrl optionsLanguage
      embedding extractedText imageUrls base64ImagesFound processedImages
      processedBase64Images userId).confidence_scores.text_extraction = mkRat 85 100 ∧
    (mkKnowledgeEntry originalFilename finalHtmlContent htmlPublicUrl optionsLanguage
      embedding extractedText imageUrls base64ImagesFound processedImages
      processedBase64Images userId).confidence_scores.overall = mkRat 87 100 ∧
    ((mkKnowledgeEntry originalFilename finalHtmlContent htmlPublicUrl optionsLanguage
      embedding extractedText imageUrls base64ImagesFound processedImages
      processedBase64Images userId).confidence_scores.image_processing = mkRat 8 10 ↔
      processedImages ≠ []) ∧
    ((mkKnowledgeEntry originalFilename finalHtmlContent htmlPublicUrl optionsLanguage
      embedding extractedText imageUrls base64ImagesFound processedImages
      processedBase64Images userId).confidence_scores.image_processing = 0 ↔
      processedImages = []) ∧
    (mkKnowledgeEntry originalFilename finalHtmlContent htmlPublicUrl optionsLanguage
      embedding extractedText imageUrls base64ImagesFound processedImages
      processedBase64Images userId).search_keywords.length ≤ 15 ∧
    (∀ w ∈ (mkKnowledgeEntry originalFilename finalHtmlContent htmlPublicUrl optionsLanguage
      embedding extractedText imageUrls base64ImagesFound processedImages
      processedBase64Images userId).search_keywords, 3 < w.length) ∧
    (mkKnowledgeEntry originalFilename finalHtmlContent htmlPublicUrl optionsLanguage
      embedding extractedText imageUrls base64ImagesFound processedImages
      processedBase64Images userId).search_keywords.Sublist (extractedText.splitOn " ") ∧
    (mkKnowledgeEntry originalFilename finalHtmlContent htmlPublicUrl optionsLanguage
      embedding extractedText imageUrls base64ImagesFound processedImages
      processedBase64Images userId).search_keywords =
      ((extractedText.splitOn " ").filter (fun w => w.length > 3)).take 15 := by
  refine ⟨rfl, rfl, rfl, ?_, ?_, ?_, ?_, ?_, rfl⟩
  · cases processedImages with
    | nil => simp [mkKnowledgeEntry]; decide
    | cons p rest => simp [mkKnowledgeEntry]
  · cases processedImages with
    | nil => simp [mkKnowledgeEntry]
    | cons p rest => simp [mkKnowledgeEntry]
  · exact le_trans (List.length_take_le 15 _) (le_refl 15)
  · intro w hw
    have hw' := List.take_subset 15 _ hw
    have := List.of_mem_filter hw'
    simpa using this
  · exact (List.take_sublist 15 _).trans (List.filter_sublist _)

/-- Witness for C6 at concrete inputs: one relocated HTTP image gives
`image_processing = 0.8`. -/
theorem C6_witness :
    (mkKnowledgeEntry "a.pdf" "<p>x</p>" "https://pub/doc.html" none [] "alpha beta no ffff"
      ["http://x/i.png"] 0 [⟨"http://x/i.png", "https://pub/i.png", "pdf-image-1-1.png", 10⟩]
      [] "user").confidence_scores.image_processing = mkRat 8 10 :=
  ((C6_knowledge_entry "a.pdf" "<p>x</p>" "https://pub/doc.html" none [] "alpha beta no ffff"
    ["http://x/i.png"] 0 [⟨"http://x/i.png", "https://pub/i.png", "pdf-image-1-1.png", 10⟩]
    [] "user").2.2.2.1).mpr (by decide)

/-- C1 counterexample: in a fresh two-step job (created with job status
`running`), running then completing the first step — exactly the
transitions `executeStep` performs — leaves the steps at
`[completed, pending]`, for which the spec's pure function yields
`pending`, while `updateJobStep` leaves the job status `running`: the job
status is *not* a pure function of the steps' statuses. -/
theorem C1_counterexample :
    (applyTransitions (freshJob ["s1", "s2"])
      [("s1", .running), ("s1", .completed)]).steps.map (fun s => s.status) =
      [.completed, .pending] ∧
    (applyTransitions (freshJob ["s1", "s2"])
      [("s1", .running), ("s1", .completed)]).status = .running ∧
    specDerivedStatus (applyTransitions (freshJob ["s1", "s2"])
      [("s1", .running), ("s1", .completed)]).steps = .pending ∧
    (applyTransitions (freshJob ["s1", "s2"])
      [("s1", .running), ("s1", .completed)]).status ≠
      specDerivedStatus (applyTransitions (freshJob ["s1", "s2"])
        [("s1", .running), ("s1", .completed)]).steps := by
  decide

/-- C1 as amended: after a step transition the job status is `failed` when
the applied update's status is `failed`, else `completed` when all steps
are completed, else `running` when some step is running, and otherwise it
keeps its previous value (it is not a pure function of the steps'
statuses). In particular, for a three-step job whose steps transition in
execution order, the cited configurations hold: steps
`[completed, completed, failed]` yield job status `failed`,
`[completed, completed, completed]` yield `completed`, and
`[completed, running, pending]` yield `running`. -/
theorem C1_workflow_status :
    ((applyTransitions (freshJob ["s1", "s2", "s3"])
        [("s1", .running), ("s1", .completed), ("s2", .running), ("s2", .completed),
         ("s3", .running), ("s3", .failed)]).steps.map (fun s => s.status) =
        [.completed, .completed, .failed] ∧
      (applyTransitions (freshJob ["s1", "s2", "s3"])
        [("s1", .running), ("s1", .completed), ("s2", .running), ("s2", .completed),
         ("s3", .running), ("s3", .failed)]).status = .failed) ∧
    ((applyTransitions (freshJob ["s1", "s2", "s3"])
        [("s1", .running), ("s1", .completed), ("s2", .running), ("s2", .completed),
         ("s3", .running), ("s3", .completed)]).steps.map (fun s => s.status) =
        [.completed, .completed, .completed] ∧
      (applyTransitions (freshJob ["s1", "s2", "s3"])
        [("s1", .running), ("s1", .completed), ("s2", .running), ("s2", .completed),
         ("s3", .running), ("s3", .completed)]).status = .completed) ∧
    ((applyTransitions (freshJob ["s1", "s2", "s3"])
        [("s1", .running), ("s1", .completed), ("s2", .running)]).steps.map
          (fun s => s.status) = [.completed, .running, .pending] ∧
      (applyTransitions (freshJob ["s1", "s2", "s3"])
        [("s1", .running), ("s1", .completed), ("s2", .running)]).status = .running) ∧
    (∀ (job : WorkflowJob) (stepId : String) (upd : StepUpdate),
      upd.status = some .failed → (job.steps.findIdx? (fun s => s.id = stepId)).isSome = true →
      (updateJobStep job stepId upd).status = .failed) := by
  refine ⟨by decide, by decide, by decide, ?_⟩
  intro job stepId upd hupd hfound
  unfold updateJobStep
  obtain ⟨i, hi⟩ := Option.isSome_iff_exists.mp hfound
  rw [hi]
  simp [hupd]

/-- Witness for C1's universally quantified conjunct at a concrete job and
failing update. -/
theorem C1_witness :
    (updateJobStep (freshJob ["s1"]) "s1" (statusUpdate .failed)).status = .failed :=
  (C1_workflow_status).2.2.2 (freshJob ["s1"]) "s1" (statusUpdate .failed) rfl (by decide)

/-- C7: the extraction pipeline's result is capped at 8,000 characters;
text whose uncapped extraction exceeds 8,000 characters is truncated to
exactly 8,000, and shorter extractions pass through untruncated. -/
theorem C7_extract_text_cap (html : List Char) :
    (extractTextFromHTMLList html).length ≤ 8000 ∧
    (8000 < (extractTextUncapped html).length →
      (extractTextFromHTMLList html).length = 8000) ∧
    ((extractTextUncapped html).length ≤ 8000 →
      extractTextFromHTMLList html = extractTextUncapped html) := by
  unfold extractTextFromHTMLList
  refine ⟨?_, ?_, ?_⟩
  · rw [List.length_take]
    exact min_le_left _ _
  · intro h
    rw [List.length_take]
    exact min_eq_left (le_of_lt h)
  · intro h
    exact List.take_of_length_le h

theorem removeBlocksFuel_no_lt (openLit closeLit : List Char) (t : List Char)
    (ho : openLit = '<' :: t) :
    ∀ (s : List Char) (f : Nat), (∀ c ∈ s, c = 'a') →
      removeBlocksFuel openLit closeLit f s = s := by
  intro s
  induction s with
  | nil => intro f _; cases f <;> rfl
  | cons c rest ih =>
    intro f hall
    have hc : c = 'a' := hall c (List.mem_cons_self c rest)
    cases f with
    | zero => rfl
    | succ n =>
      have hciDrop : ciDropLit openLit (c :: rest) = none := by
        rw [ho, hc]
        unfold ciDropLit
        rw [if_neg (by decide)]
      unfold removeBlocksFuel
      rw [hciDrop]
      rw [ih n (fun x hx => hall x (List.mem_cons_of_mem c hx))]

theorem stripTagsFuel_no_lt :
    ∀ (s : List Char) (f : Nat), (∀ c ∈ s, c = 'a') → stripTagsFuel f s = s := by
  intro s
  induction s with
  | nil => intro f _; cases f <;> rfl
  | cons c rest ih =>
    intro f hall
    have hc : c = 'a' := hall c (List.mem_cons_self c rest)
    cases f with
    | zero => rfl
    | succ n =>
      unfold stripTagsFuel
      rw [if_neg (by rw [hc]; decide)]
      rw [ih n (fun x hx => hall x (List.mem_cons_of_mem c hx))]

theorem replaceAllFuel_no_amp (pat repl : List Char) (t : List Char)
    (hp : pat = '&' :: t) :
    ∀ (s : List Char) (f : Nat), (∀ c ∈ s, c = 'a') →
      replaceAllFuel pat repl f s = s := by
  intro s
  induction s with
  | nil => intro f _; cases f <;> rfl
  | cons c rest ih =>
    intro f hall
    have hc : c = 'a' := hall c (List.mem_cons_self c rest)
    cases f with
    | zero => rfl
    | succ n =>
      have hcs : csDropLit pat (c :: rest) = none := by
        rw [hp, hc]
        unfold csDropLit
        rw [if_neg (by decide)]
      unfold replaceAllFuel
      rw [hcs]
      rw [ih n (fun x hx => hall x (List.mem_cons_of_mem c hx))]

theorem collapseWsFuel_no_space :
    ∀ (s : List Char) (f : Nat), (∀ c ∈ s, c = 'a') → collapseWsFuel f s = s := by
  intro s
  induction s with
  | nil => intro f _; cases f <;> rfl
  | cons c rest ih =>
    intro f hall
    have hc : c = 'a' := hall c (List.mem_cons_self c rest)
    cases f with
    | zero => rfl
    | succ n =>
      unfold collapseWsFuel
      rw [if_neg (by rw [hc]; decide)]
      rw [ih n (fun x hx => hall x (List.mem_cons_of_mem c hx))]

theorem trimJs_no_space (s : List Char) (hall : ∀ c ∈ s, c = 'a') : trimJs s = s := by
  have hdrop : ∀ (l : List Char), (∀ c ∈ l, c = 'a') → l.dropWhile isJsSpace = l := by
    intro l hl
    cases l with
    | nil => rfl
    | cons c rest =>
      have hc : c = 'a' := hl c (List.mem_cons_self c rest)
      rw [List.dropWhile_cons, if_neg (by rw [hc]; decide)]
  unfold trimJs
  rw [hdrop s hall, hdrop s.reverse (fun c hc => hall c (List.mem_reverse.mp hc)),
    List.reverse_reverse]

theorem extractTextUncapped_all_a (s : List Char) (hall : ∀ c ∈ s, c = 'a') :
    extractTextUncapped s = s := by
  simp only [extractTextUncapped]
  rw [removeBlocksFuel_no_lt "<script".toList "</script>".toList "script".toList (by rfl) s _ hall,
    removeBlocksFuel_no_lt "<style".toList "</style>".toList "style".toList (by rfl) s _ hall,
    stripTagsFuel_no_lt s _ hall,
    replaceAllFuel_no_amp "&nbsp;".toList [' '] "nbsp;".toList (by rfl) s _ hall,
    replaceAllFuel_no_amp "&amp;".toList ['&'] "amp;".toList (by rfl) s _ hall,
    replaceAllFuel_no_amp "&lt;".toList ['<'] "lt;".toList (by rfl) s _ hall,
    replaceAllFuel_no_amp "&gt;".toList ['>'] "gt;".toList (by rfl) s _ hall,
    replaceAllFuel_no_amp "&quot;".toList ['"'] "quot;".toList (by rfl) s _ hall,
    replaceAllFuel_no_amp "&#39;".toList ['\''] "#39;".toList (by rfl) s _ hall,
    collapseWsFuel_no_space s _ hall,
    trimJs_no_space s hall]

/-- Witness for C7 at a concrete 8,100-character input whose extraction is
the identity, hence over the cap and truncated to exactly 8,000. -/
theorem C7_witness :
    8000 < (extractTextUncapped (List.replicate 8100 'a')).length ∧
    (extractTextFromHTMLList (List.replicate 8100 'a')).length = 8000 := by
  have hid : extractTextUncapped (List.replicate 8100 'a') = List.replicate 8100 'a' :=
    extractTextUncapped_all_a _ (fun c hc => List.eq_of_mem_replicate hc)
  have hlen : 8000 < (extractTextUncapped (List.replicate 8100 'a')).length := by
    rw [hid, List.length_replicate]
    decide
  exact ⟨hlen, (C7_extract_text_cap (List.replicate 8100 'a')).2.1 hlen⟩

/-- C8: given a successful upload, the relocation fetch accepts an image
exactly when the response is ok, the content type is an image subtype, and
the payload is at most 5 MB; a payload of exactly 5 MB is accepted and a
payload of 5 MB + 1 byte is rejected regardless of the upload outcome. -/
theorem C8_image_size_boundary (imageUrl userId : String) (index : Nat)
    (resp : ImageFetchResponse) (publicUrl : String) (now : Nat) :
    ((downloadAndStoreImage imageUrl userId index resp none publicUrl now).isSome = true ↔
      (resp.ok = true ∧ contentTypeIsImage resp.contentType = true ∧
        resp.size ≤ 5 * 1024 * 1024)) ∧
    (∀ ct, contentTypeIsImage (some ct) = true →
      (downloadAndStoreImage imageUrl userId index ⟨true, some ct, 5 * 1024 * 1024⟩
        none publicUrl now).isSome = true) ∧
    (∀ uploadError ct,
      downloadAndStoreImage imageUrl userId index ⟨true, ct, 5 * 1024 * 1024 + 1⟩
        uploadError publicUrl now = none) := by
  refine ⟨?_, ?_, ?_⟩
  · unfold downloadAndStoreImage
    by_cases hok : resp.ok = false
    · rw [if_pos hok]
      simp [hok]
    · rw [if_neg hok]
      rw [Bool.not_eq_false] at hok
      by_cases hct : contentTypeIsImage resp.contentType = false
      · rw [if_pos hct]
        simp [hok, hct]
      · rw [if_neg hct]
        rw [Bool.not_eq_false] at hct
        by_cases hsz : 5 * 1024 * 1024 < resp.size
        · rw [if_pos hsz]
          simp [hok, hct, Nat.not_le.mpr hsz]
        · rw [if_neg hsz]
          simp [hok, hct, Nat.not_lt.mp hsz]
  · intro ct hct
    unfold downloadAndStoreImage
    rw [if_neg (by simp), if_neg (by simp [hct]), if_neg (by simp)]
    rfl
  · intro uploadError ct
    unfold downloadAndStoreImage
    rw [if_neg (by simp)]
    by_cases hct : contentTypeIsImage ct = false
    · rw [if_pos hct]
    · rw [if_neg hct, if_pos (by simp)]

/-- Witness for C8 at a concrete `image/png` response of exactly 5 MB. -/
theorem C8_witness :
    (downloadAndStoreImage "http://host/i.png" "user" 0
      ⟨true, some "image/png", 5 * 1024 * 1024⟩ none "https://pub/i.png" 7).isSome = true :=
  (C8_image_size_boundary "http://host/i.png" "user" 0
    ⟨true, some "image/png", 5 * 1024 * 1024⟩ "https://pub/i.png" 7).2.1
    "image/png" (by decide)

/-- C9: a single image whose relocation fails (fetch, decode, or upload)
is skipped without aborting either processing loop: the processed list of
any task list containing the failing image is exactly the processed lists
of the surrounding tasks, so every remaining image is still processed and
the run proceeds with whatever succeeded. -/
theorem C9_image_failure_skipped :
    (∀ (userId : String) (now i : Nat) (pre : List HttpImageTask) (x : HttpImageTask)
      (post : List HttpImageTask),
      (∀ idx, downloadAndStoreImage x.url userId idx x.resp x.uploadError x.publicUrl now
        = none) →
      processHttpImages userId now i (pre ++ x :: post) =
        processHttpImages userId now i pre ++
          processHttpImages userId now (i + pre.length + 1) post) ∧
    (∀ (userId : String) (now i : Nat) (pre : List Base64ImageTask) (y : Base64ImageTask)
      (post : List Base64ImageTask),
      (∀ idx, processBase64Image y.data y.imageType userId idx y.uploadError y.publicUrl now
        = none) →
      processBase64Images userId now i (pre ++ y :: post) =
        processBase64Images userId now i pre ++
          processBase64Images userId now (i + pre.length + 1) post) := by
  constructor
  · intro userId now i pre
    induction pre generalizing i with
    | nil =>
      intro x post hx
      simp only [List.nil_append, processHttpImages, hx i]
      rfl
    | cons t rest ih =>
      intro x post hx
      simp only [List.cons_append, processHttpImages, List.append_eq]
      rw [ih (i + 1) x post hx]
      have harith : i + 1 + rest.length + 1 = i + (rest.length + 1) + 1 := by omega
      rw [harith]
      cases downloadAndStoreImage t.url userId i t.resp t.uploadError t.publicUrl now with
      | none => simp [List.length_cons]
      | some p => simp [List.length_cons]
  · intro userId now i pre
    induction pre generalizing i with
    | nil =>
      intro y post hy
      simp only [List.nil_append, processBase64Images, hy i]
      rfl
    | cons t rest ih =>
      intro y post hy
      simp only [List.cons_append, processBase64Images, List.append_eq]
      rw [ih (i + 1) y post hy]
      have harith : i + 1 + rest.length + 1 = i + (rest.length + 1) + 1 := by omega
      rw [harith]
      cases processBase64Image t.data t.imageType userId i t.uploadError t.publicUrl now with
      | none => simp [List.length_cons]
      | some p => simp [List.length_cons]

/-- Witness for C9: a concrete three-image HTTP batch whose middle fetch
returned 404 — the two healthy images are still processed. -/
theorem C9_witness :
    processHttpImages "user" 7 0
      ([⟨"http://h/a.png", ⟨true, some "image/png", 10⟩, none, "https://pub/a.png"⟩] ++
        ⟨"http://h/bad.png", ⟨false, some "image/png", 10⟩, none, "https://pub/bad.png"⟩ ::
        [⟨"http://h/c.png", ⟨true, some "image/png", 20⟩, none, "https://pub/c.png"⟩]) =
      processHttpImages "user" 7 0
        [⟨"http://h/a.png", ⟨true, some "image/png", 10⟩, none, "https://pub/a.png"⟩] ++
      processHttpImages "user" 7 2
        [⟨"http://h/c.png", ⟨true, some "image/png", 20⟩, none, "https://pub/c.png"⟩] :=
  (C9_image_failure_skipped).1 "user" 7 0
    [⟨"http://h/a.png", ⟨true, some "image/png", 10⟩, none, "https://pub/a.png"⟩]
    ⟨"http://h/bad.png", ⟨false, some "image/png", 10⟩, none, "https://pub/bad.png"⟩
    [⟨"http://h/c.png", ⟨true, some "image/png", 20⟩, none, "https://pub/c.png"⟩]
    (fun _ => rfl)
